import Mathlib

/-!
# Verification of the faststream publisher registry and consume-loop contracts

This file gives a shallow embedding of `src/faststream/kafka/router.py`
(the `KafkaRouter` publisher registry) and of the consume/acknowledgement
behaviour exercised by `src/tests/brokers/redis/test_consume.py`, and
settles the stated properties about them.

The Kafka router is embedded directly from the source: a `Publisher` is a
record of the constructor arguments plus a numeric object identity `pid`
(every Python call allocates a fresh object); the registry `_publishers`
is an insertion-ordered association list mirroring a Python `dict`;
`publisher` threads the router state explicitly.
-/

/-- Raw bytes (the Python `bytes` values used for the Kafka message key). -/
abbrev Bytes := List Nat

/-- Embedding of `faststream.kafka.asyncapi.Publisher` as constructed by
`KafkaRouter.publisher`: the constructor arguments of the call, plus `pid`,
a numeric object identity standing for Python object identity (each
`Publisher(...)` allocation gets a fresh `pid`). -/
structure Publisher where
  pid : Nat
  topic : String
  key : Option Bytes
  partition : Option Int
  timestamp_ms : Option Int
  headers : Option (List (String × String))
  reply_to : String
  batch : Bool
  title : Option String
  description : Option String
  schema : Option String
  include_in_schema : Bool
deriving DecidableEq

/-- The state of a `KafkaRouter`: its `prefix` attribute (named
`routerPrefix` here because `prefix` is a Lean keyword), its optional
`include_in_schema` override, the `_publishers` dict (insertion-ordered
association list), and the allocation counter for fresh object ids. -/
structure KafkaRouter where
  routerPrefix : String
  include_in_schema : Option Bool
  _publishers : List (String × Publisher)
  nextId : Nat
deriving DecidableEq

/-- Python `dict` lookup (`d.get(k)`) on the ordered association list. -/
def dictGet : List (String × Publisher) → String → Option Publisher
  | [], _ => none
  | (k1, v1) :: rest, k => if k1 = k then some v1 else dictGet rest k

/-- Python `dict` assignment (`d[k] = v`): replaces in place if the key is
present (preserving insertion order), appends otherwise. -/
def dictSet : List (String × Publisher) → String → Publisher → List (String × Publisher)
  | [], k, v => [(k, v)]
  | (k1, v1) :: rest, k, v =>
    if k1 = k then (k, v) :: rest else (k1, v1) :: dictSet rest k v

/-- `KafkaRouter._get_publisher_key`: `return publisher.topic`. -/
def KafkaRouter._get_publisher_key (publisher : Publisher) : String :=
  publisher.topic

/-- `KafkaRouter._update_publisher_prefix`: sets
`publisher.topic = prefix + publisher.topic` and returns the publisher. -/
def KafkaRouter._update_publisher_prefix (pfx : String) (publisher : Publisher) :
    Publisher :=
  { publisher with topic := pfx ++ publisher.topic }

/-- The arguments of one `KafkaRouter.publisher(...)` call. -/
structure PubCall where
  topic : String
  key : Option Bytes
  partition : Option Int
  timestamp_ms : Option Int
  headers : Option (List (String × String))
  reply_to : String
  batch : Bool
  title : Option String
  description : Option String
  schema : Option String
  include_in_schema : Bool
deriving DecidableEq

/-- The candidate built inside `KafkaRouter.publisher`:
`self._update_publisher_prefix(self.prefix, Publisher(topic=topic, ...,
include_in_schema=(include_in_schema if self.include_in_schema is None
else self.include_in_schema)))`. -/
def KafkaRouter.mkCandidate (r : KafkaRouter) (c : PubCall) : Publisher :=
  KafkaRouter._update_publisher_prefix r.routerPrefix
    { pid := r.nextId
      topic := c.topic
      key := c.key
      partition := c.partition
      timestamp_ms := c.timestamp_ms
      headers := c.headers
      reply_to := c.reply_to
      batch := c.batch
      title := c.title
      description := c.description
      schema := c.schema
      include_in_schema := r.include_in_schema.getD c.include_in_schema }

/-- `KafkaRouter.publisher`: builds the prefixed candidate, computes
`publisher_key = self._get_publisher_key(new_publisher)`, then
`publisher = self._publishers[publisher_key] =
self._publishers.get(publisher_key, new_publisher)` and returns it.
State passing replaces Python mutation of `self`. -/
def KafkaRouter.publisher (r : KafkaRouter) (c : PubCall) : Publisher × KafkaRouter :=
  let new_publisher := r.mkCandidate c
  let publisher_key := KafkaRouter._get_publisher_key new_publisher
  let stored := (dictGet r._publishers publisher_key).getD new_publisher
  (stored,
   { r with
      _publishers := dictSet r._publishers publisher_key stored
      nextId := r.nextId + 1 })

/-- Runs a sequence of `publisher()` calls on a router, collecting the
returned Publishers and the final router state. -/
def runCalls : KafkaRouter → List PubCall → List Publisher × KafkaRouter
  | r, [] => ([], r)
  | r, c :: cs =>
    let step := r.publisher c
    let rest := runCalls step.2 cs
    (step.1 :: rest.1, rest.2)

/-- Registry well-formedness: every stored publisher's topic equals the
key it is stored under. This holds in every state reachable through
`publisher()` calls, since the key is extracted from the prefixed topic. -/
def PubsWF (r : KafkaRouter) : Prop :=
  ∀ kp ∈ r._publishers, (kp.2).topic = kp.1

-- Basic dictionary lemmas.

theorem dictGet_dictSet_same (d : List (String × Publisher)) (k : String)
    (v : Publisher) : dictGet (dictSet d k v) k = some v := by
  induction d with
  | nil => simp [dictSet, dictGet]
  | cons hd tl ih =>
    obtain ⟨k1, v1⟩ := hd
    by_cases h : k1 = k
    · simp [dictSet, h, dictGet]
    · simp [dictSet, h, dictGet, ih]

theorem dictGet_dictSet_other (d : List (String × Publisher)) (k k2 : String)
    (v : Publisher) (h : k2 ≠ k) :
    dictGet (dictSet d k v) k2 = dictGet d k2 := by
  induction d with
  | nil => simp [dictSet, dictGet, Ne.symm h]
  | cons hd tl ih =>
    obtain ⟨k1, v1⟩ := hd
    by_cases h1 : k1 = k
    · subst h1
      simp [dictSet, dictGet, Ne.symm h]
    · simp [dictSet, h1, dictGet, ih]

theorem dictGet_mem (d : List (String × Publisher)) (k : String) (v : Publisher)
    (h : dictGet d k = some v) : (k, v) ∈ d := by
  induction d with
  | nil => simp [dictGet] at h
  | cons hd tl ih =>
    obtain ⟨k1, v1⟩ := hd
    by_cases h1 : k1 = k
    · subst h1
      simp [dictGet] at h
      simp [h]
    · simp [dictGet, h1] at h
      exact List.mem_cons_of_mem _ (ih h)

-- Step lemmas for one `publisher()` call.

theorem mkCandidate_topic (r : KafkaRouter) (c : PubCall) :
    (r.mkCandidate c).topic = r.routerPrefix ++ c.topic := rfl

theorem publisher_snd_routerPrefix (r : KafkaRouter) (c : PubCall) :
    ((r.publisher c).2).routerPrefix = r.routerPrefix := rfl

theorem publisher_snd_include (r : KafkaRouter) (c : PubCall) :
    ((r.publisher c).2).include_in_schema = r.include_in_schema := rfl

theorem publisher_snd_pubs (r : KafkaRouter) (c : PubCall) :
    ((r.publisher c).2)._publishers =
      dictSet r._publishers (r.routerPrefix ++ c.topic) ((r.publisher c).1) := rfl

theorem publisher_fst_hit (r : KafkaRouter) (c : PubCall) (p : Publisher)
    (h : dictGet r._publishers (r.routerPrefix ++ c.topic) = some p) :
    (r.publisher c).1 = p := by
  simp [KafkaRouter.publisher, KafkaRouter._get_publisher_key, mkCandidate_topic, h]

theorem publisher_fst_miss (r : KafkaRouter) (c : PubCall)
    (h : dictGet r._publishers (r.routerPrefix ++ c.topic) = none) :
    (r.publisher c).1 = r.mkCandidate c := by
  simp [KafkaRouter.publisher, KafkaRouter._get_publisher_key, mkCandidate_topic, h]

/-- After any single call, the resolved key maps to the returned publisher,
and the returned publisher's topic is the prefixed topic. -/
theorem firstCall_establishes (r : KafkaRouter) (c : PubCall) (hwf : PubsWF r) :
    dictGet ((r.publisher c).2)._publishers (r.routerPrefix ++ c.topic) =
      some ((r.publisher c).1) ∧
    ((r.publisher c).1).topic = r.routerPrefix ++ c.topic := by
  refine ⟨?_, ?_⟩
  · rw [publisher_snd_pubs]
    exact dictGet_dictSet_same _ _ _
  · cases hd : dictGet r._publishers (r.routerPrefix ++ c.topic) with
    | none => rw [publisher_fst_miss r c hd, mkCandidate_topic]
    | some p =>
      rw [publisher_fst_hit r c p hd]
      exact hwf _ (dictGet_mem _ _ _ hd)

/-- Once the resolved key maps to `p`, every further call with the same
topic returns `p` and keeps the mapping (the stored object is never
touched again). -/
theorem runCalls_stable (t : String) (p : Publisher) (cs : List PubCall) :
    ∀ r : KafkaRouter, (∀ c ∈ cs, c.topic = t) →
    dictGet r._publishers (r.routerPrefix ++ t) = some p →
    (runCalls r cs).1 = List.replicate cs.length p ∧
    dictGet ((runCalls r cs).2)._publishers (((runCalls r cs).2).routerPrefix ++ t) =
      some p ∧
    ((runCalls r cs).2).routerPrefix = r.routerPrefix := by
  induction cs with
  | nil => intro r _ hget; exact ⟨rfl, hget, rfl⟩
  | cons c cs ih =>
    intro r hall hget
    have hct : c.topic = t := hall c (List.mem_cons_self c cs)
    have hget1 : dictGet r._publishers (r.routerPrefix ++ c.topic) = some p := by
      rw [hct]; exact hget
    have hfst : (r.publisher c).1 = p := publisher_fst_hit r c p hget1
    have hget2 : dictGet ((r.publisher c).2)._publishers
        (((r.publisher c).2).routerPrefix ++ t) = some p := by
      rw [publisher_snd_pubs, publisher_snd_routerPrefix, hct]
      rw [hfst]
      exact dictGet_dictSet_same _ _ _
    have hrest := ih ((r.publisher c).2) (fun c2 hc2 => hall c2 (List.mem_cons_of_mem c hc2)) hget2
    refine ⟨?_, ?_, ?_⟩
    · simp only [runCalls, List.length_cons, List.replicate_succ]
      rw [hfst, hrest.1]
    · simpa only [runCalls] using hrest.2.1
    · simpa only [runCalls, publisher_snd_routerPrefix] using hrest.2.2

/-- C1: for every sequence of `publisher()` calls whose destinations resolve
to the same key (same topic on one router), exactly one Publisher instance
is returned across all of the calls — the result list is one publisher
replicated — and that publisher's topic is the router's prefix concatenated
with the first call's topic argument. -/
theorem publisher_dedup_unique (r : KafkaRouter) (t : String) (cs : List PubCall)
    (hwf : PubsWF r) (hne : cs ≠ []) (hall : ∀ c ∈ cs, c.topic = t) :
    ∃ p : Publisher, (runCalls r cs).1 = List.replicate cs.length p ∧
      p.topic = r.routerPrefix ++ t := by
  cases cs with
  | nil => exact absurd rfl hne
  | cons c cs =>
    have hct : c.topic = t := hall c (List.mem_cons_self c cs)
    obtain ⟨hkey, htopic⟩ := firstCall_establishes r c hwf
    refine ⟨(r.publisher c).1, ?_, by rw [htopic, hct]⟩
    have hget : dictGet ((r.publisher c).2)._publishers
        (((r.publisher c).2).routerPrefix ++ t) = some ((r.publisher c).1) := by
      rw [publisher_snd_routerPrefix, ← hct]
      exact hkey
    have hrest := runCalls_stable t ((r.publisher c).1) cs ((r.publisher c).2)
      (fun c2 hc2 => hall c2 (List.mem_cons_of_mem c hc2)) hget
    simp only [runCalls, List.length_cons, List.replicate_succ]
    rw [hrest.1]

/-- C2: prefix application is idempotent at the registry interface — two
`publisher` calls for topic `a` yield a publisher whose topic is
`prefix ++ a`, and (for a nonempty prefix) never `prefix ++ prefix ++ a`:
the second call does not re-apply the prefix to the stored publisher. -/
theorem prefix_applied_once (r : KafkaRouter) (a : String) (c1 c2 : PubCall)
    (hwf : PubsWF r) (h1 : c1.topic = a) (h2 : c2.topic = a)
    (hp : r.routerPrefix ≠ "") :
    (((r.publisher c1).2).publisher c2).1.topic = r.routerPrefix ++ a ∧
    (((r.publisher c1).2).publisher c2).1.topic ≠
      r.routerPrefix ++ (r.routerPrefix ++ a) := by
  obtain ⟨hkey, htopic⟩ := firstCall_establishes r c1 hwf
  have hget : dictGet ((r.publisher c1).2)._publishers
      (((r.publisher c1).2).routerPrefix ++ c2.topic) = some ((r.publisher c1).1) := by
    rw [publisher_snd_routerPrefix, h2, ← h1]
    exact hkey
  have hfst2 : (((r.publisher c1).2).publisher c2).1 = (r.publisher c1).1 :=
    publisher_fst_hit _ c2 _ hget
  have heqt : (((r.publisher c1).2).publisher c2).1.topic = r.routerPrefix ++ a := by
    rw [hfst2, htopic, h1]
  refine ⟨heqt, ?_⟩
  rw [heqt]
  intro heq
  have hlen := congrArg String.length heq
  simp only [String.length_append] at hlen
  have hzero : r.routerPrefix.length = 0 := by omega
  have hdata : r.routerPrefix.data.length = 0 := hzero
  have hnil : r.routerPrefix.data = [] := List.length_eq_zero.mp hdata
  exact hp (String.ext (by rw [hnil]))

/-- C3: when `publisher()` is called with a key already present in the
registry, the fresh candidate is discarded and the previously stored
Publisher is returned with every field unchanged, whatever the later
call's arguments were. -/
theorem stored_publisher_unchanged (r : KafkaRouter) (c : PubCall) (p : Publisher)
    (h : dictGet r._publishers (r.routerPrefix ++ c.topic) = some p) :
    (r.publisher c).1 = p ∧
    dictGet ((r.publisher c).2)._publishers (r.routerPrefix ++ c.topic) = some p := by
  have hfst := publisher_fst_hit r c p h
  refine ⟨hfst, ?_⟩
  rw [publisher_snd_pubs, hfst]
  exact dictGet_dictSet_same _ _ _

/-- C8: the deduplication key is a pure function of the publisher's final
topic — `_get_publisher_key` returns exactly the topic field, the key of a
candidate is the prefixed topic, and two calls with equal topics resolve to
the same key regardless of every other argument. -/
theorem publisher_key_is_topic (p : Publisher) (r : KafkaRouter) (c1 c2 : PubCall)
    (h : c1.topic = c2.topic) :
    KafkaRouter._get_publisher_key p = p.topic ∧
    KafkaRouter._get_publisher_key (r.mkCandidate c1) = r.routerPrefix ++ c1.topic ∧
    KafkaRouter._get_publisher_key (r.mkCandidate c1) =
      KafkaRouter._get_publisher_key (r.mkCandidate c2) := by
  refine ⟨rfl, rfl, ?_⟩
  show (r.mkCandidate c1).topic = (r.mkCandidate c2).topic
  rw [mkCandidate_topic, mkCandidate_topic, h]

/-- C9: when the resolved key is fresh, the created Publisher's
`include_in_schema` is `r.include_in_schema.getD c.include_in_schema`:
the router's value when the router attribute is not `None` (the call's
argument is ignored), and the call's argument when it is `None`. -/
theorem include_in_schema_override (r : KafkaRouter) (c : PubCall)
    (hfresh : dictGet r._publishers (r.routerPrefix ++ c.topic) = none) :
    ((r.publisher c).1).include_in_schema =
      r.include_in_schema.getD c.include_in_schema := by
  rw [publisher_fst_miss r c hfresh]
  rfl

/-- C10: a `publisher()` call modifies the registry at most at its own
resolved key — every other key maps to the same stored value as before —
and afterwards the resolved key is always present. -/
theorem publisher_frame (r : KafkaRouter) (c : PubCall) (k : String)
    (h : k ≠ r.routerPrefix ++ c.topic) :
    dictGet ((r.publisher c).2)._publishers k = dictGet r._publishers k ∧
    (dictGet ((r.publisher c).2)._publishers (r.routerPrefix ++ c.topic)).isSome := by
  refine ⟨?_, ?_⟩
  · rw [publisher_snd_pubs]
    exact dictGet_dictSet_other _ _ _ _ h
  · rw [publisher_snd_pubs, dictGet_dictSet_same]
    rfl

-- Concrete inputs used by the witnesses.

/-- A concrete registration call for topic `"a"`. -/
def cEx : PubCall :=
  { topic := "a", key := none, partition := none, timestamp_ms := none,
    headers := none, reply_to := "", batch := false, title := none,
    description := none, schema := none, include_in_schema := true }

/-- A second concrete call for topic `"a"` with entirely different
metadata. -/
def cEx2 : PubCall :=
  { topic := "a", key := some [1], partition := some 2, timestamp_ms := some 3,
    headers := some [("h", "v")], reply_to := "r", batch := true,
    title := some "t", description := some "d", schema := some "s",
    include_in_schema := false }

/-- A concrete fresh router with prefix `"p_"` and no `include_in_schema`
override. -/
def rEx : KafkaRouter :=
  { routerPrefix := "p_", include_in_schema := none, _publishers := [],
    nextId := 0 }

theorem publisher_dedup_unique_witness :
    ∃ p : Publisher, (runCalls rEx [cEx, cEx2]).1 = List.replicate 2 p ∧
      p.topic = rEx.routerPrefix ++ "a" :=
  publisher_dedup_unique rEx "a" [cEx, cEx2]
    (by intro kp hkp; simp [rEx] at hkp)
    (by simp)
    (by intro c hc; simp [cEx, cEx2] at hc; rcases hc with h | h <;> simp [h, cEx, cEx2])

theorem prefix_applied_once_witness :
    (((rEx.publisher cEx).2).publisher cEx2).1.topic = rEx.routerPrefix ++ "a" ∧
    (((rEx.publisher cEx).2).publisher cEx2).1.topic ≠
      rEx.routerPrefix ++ (rEx.routerPrefix ++ "a") :=
  prefix_applied_once rEx "a" cEx cEx2
    (by intro kp hkp; simp [rEx] at hkp) rfl rfl (by decide)

theorem stored_publisher_unchanged_witness :
    (((rEx.publisher cEx).2).publisher cEx2).1 = (rEx.publisher cEx).1 ∧
    dictGet ((((rEx.publisher cEx).2).publisher cEx2).2)._publishers
      (((rEx.publisher cEx).2).routerPrefix ++ cEx2.topic) =
      some ((rEx.publisher cEx).1) :=
  stored_publisher_unchanged ((rEx.publisher cEx).2) cEx2 ((rEx.publisher cEx).1)
    (by decide)

theorem publisher_key_is_topic_witness :
    KafkaRouter._get_publisher_key ((rEx.publisher cEx).1) =
      ((rEx.publisher cEx).1).topic ∧
    KafkaRouter._get_publisher_key (rEx.mkCandidate cEx) =
      rEx.routerPrefix ++ cEx.topic ∧
    KafkaRouter._get_publisher_key (rEx.mkCandidate cEx) =
      KafkaRouter._get_publisher_key (rEx.mkCandidate cEx2) :=
  publisher_key_is_topic ((rEx.publisher cEx).1) rEx cEx cEx2 rfl

theorem include_in_schema_override_witness :
    ((rEx.publisher cEx).1).include_in_schema =
      rEx.include_in_schema.getD cEx.include_in_schema :=
  include_in_schema_override rEx cEx (by decide)

theorem publisher_frame_witness :
    dictGet ((rEx.publisher cEx).2)._publishers "other" =
      dictGet rEx._publishers "other" ∧
    (dictGet ((rEx.publisher cEx).2)._publishers
      (rEx.routerPrefix ++ cEx.topic)).isSome :=
  publisher_frame rEx cEx "other" (by decide)

/-!
## Redis consume-loop contracts

The Redis broker implementation itself is not part of this excerpt — only
its tests (`src/tests/brokers/redis/test_consume.py`) are. The components
below are therefore modelled from the specification and checked against
the behaviour the tests pin down.
-/

/-- Modelled from the spec: the outcome of invoking a handler on one
consumed entry — it either completes normally or calls `nack` on the
message (the Redis subscriber implementation is not in the excerpt). -/
inductive HandlerOutcome
  | completed
  | nacked
deriving DecidableEq

/-- Modelled from the spec: one entry read from a Redis stream, carrying
its stream-assigned entry id. -/
structure ConsumedEntry where
  entryId : String
deriving DecidableEq

/-- Modelled from the spec (§4.3, Acknowledgement Controller — the Redis
acknowledgement code is not in the excerpt): processing one consumed entry
returns the list of `xack` calls issued (each identified by the entry id it
acknowledges). In group mode a normal completion issues the single `xack`
for the entry and a `nack` deliberately withholds it; without a group no
acknowledgement primitive exists to call. -/
def processEntry (groupMode : Bool) (e : ConsumedEntry) (outcome : HandlerOutcome) :
    List String :=
  if groupMode then
    match outcome with
    | HandlerOutcome.completed => [e.entryId]
    | HandlerOutcome.nacked => []
  else []

/-- C4: for a stream+group subscription, a handler that completes without
nacking causes exactly one `xack` call, keyed by the consumed entry's id;
a handler that nacks causes zero `xack` calls for that entry. -/
theorem group_ack_nack_semantics (e : ConsumedEntry) :
    processEntry true e HandlerOutcome.completed = [e.entryId] ∧
    (processEntry true e HandlerOutcome.completed).length = 1 ∧
    (processEntry true e HandlerOutcome.nacked).length = 0 := by
  refine ⟨rfl, rfl, rfl⟩

/-- Modelled from the spec: the `StreamSub` destination descriptor for a
stream+group subscription (`last_id` optional at registration; the Redis
`StreamSub` class is not in the excerpt). -/
structure StreamSub where
  name : String
  group : Option String
  consumer : Option String
  last_id : Option String
deriving DecidableEq

/-- Modelled from the spec: the subscriber produced by registering a
stream+group subscription (the Redis handler class is not in the excerpt). -/
structure StreamSubscriber where
  channel : String
  group : Option String
  consumer : Option String
  last_id : String
deriving DecidableEq

/-- Modelled from the spec: registration of a stream+group subscriber —
`last_id` "defaults to `"$"` (tail) unless explicitly set". -/
def registerStreamSubscriber (s : StreamSub) : StreamSubscriber :=
  { channel := s.name
    group := s.group
    consumer := s.consumer
    last_id := s.last_id.getD "$" }

/-- C5: a stream+group subscriber registered with no explicit `last_id`
has `last_id = "$"` after registration; one registered with
`last_id = "0"` has `last_id = "0"`. -/
theorem last_id_default (q g c : String) :
    (registerStreamSubscriber
      { name := q, group := some g, consumer := some c, last_id := none }).last_id
      = "$" ∧
    (registerStreamSubscriber
      { name := q, group := some g, consumer := some c,
        last_id := some "0" }).last_id = "0" :=
  ⟨rfl, rfl⟩

/-- Modelled from the spec: the batched Message Envelope delivered to a
handler — body sequence, envelope-level headers and the parallel per-item
`batch_headers` (the Redis parser is not in the excerpt). -/
structure MessageEnvelope where
  body : List String
  headers : List (String × String)
  batch_headers : List (List (String × String))
deriving DecidableEq

/-- Modelled from the spec: the headers attached to each item of a single
publish call — the caller-supplied custom headers plus the one
`correlation_id` generated for that publish. -/
def itemHeaders (custom : List (String × String)) (cid : String) :
    List (String × String) :=
  custom ++ [("correlation_id", cid)]

/-- Modelled from the spec (§4.4 Batch Accumulator and header propagation —
the Redis batch parser is not in the excerpt): one publish call with
payloads `payloads`, custom headers `custom` and generated correlation id
`cid` produces one batched envelope whose envelope headers are the first
item's headers and whose `batch_headers` is the parallel per-item header
sequence sharing the same correlation id. -/
def buildBatchEnvelope (payloads : List String) (custom : List (String × String))
    (cid : String) : MessageEnvelope :=
  { body := payloads
    headers := itemHeaders custom cid
    batch_headers := payloads.map (fun _ => itemHeaders custom cid) }

theorem lookup_append_left {k v : String} (l1 l2 : List (String × String))
    (h : List.lookup k l1 = some v) : List.lookup k (l1 ++ l2) = some v := by
  induction l1 with
  | nil => simp [List.lookup] at h
  | cons hd tl ih =>
    obtain ⟨k1, v1⟩ := hd
    by_cases hk : k = k1
    · subst hk
      simp [List.lookup] at h ⊢
      exact h
    · have hbeq : (k == k1) = false := beq_eq_false_iff_ne.mpr hk
      simp [List.lookup, hbeq] at h ⊢
      exact ih h

/-- C6: for every batched envelope produced from a single publish call,
`batch_headers` and `body` have equal length, the `correlation_id` of the
envelope headers equals the `correlation_id` of every entry of
`batch_headers`, and any custom header supplied at publish time is present
in the envelope headers. -/
theorem batch_alignment (payloads : List String) (custom : List (String × String))
    (cid k v : String) (hk : List.lookup k custom = some v) :
    (buildBatchEnvelope payloads custom cid).batch_headers.length =
      (buildBatchEnvelope payloads custom cid).body.length ∧
    (∀ h ∈ (buildBatchEnvelope payloads custom cid).batch_headers,
      List.lookup "correlation_id" h =
        List.lookup "correlation_id" (buildBatchEnvelope payloads custom cid).headers) ∧
    List.lookup k (buildBatchEnvelope payloads custom cid).headers = some v := by
  refine ⟨?_, ?_, ?_⟩
  · simp [buildBatchEnvelope]
  · intro h hh
    simp [buildBatchEnvelope] at hh
    obtain ⟨_, _, rfl⟩ := hh
    rfl
  · exact lookup_append_left custom _ hk

theorem batch_alignment_witness :
    (buildBatchEnvelope ["m1", "m2"] [("custom", "1")] "cid0").batch_headers.length =
      (buildBatchEnvelope ["m1", "m2"] [("custom", "1")] "cid0").body.length ∧
    (∀ h ∈ (buildBatchEnvelope ["m1", "m2"] [("custom", "1")] "cid0").batch_headers,
      List.lookup "correlation_id" h =
        List.lookup "correlation_id"
          (buildBatchEnvelope ["m1", "m2"] [("custom", "1")] "cid0").headers) ∧
    List.lookup "custom"
      (buildBatchEnvelope ["m1", "m2"] [("custom", "1")] "cid0").headers = some "1" :=
  batch_alignment ["m1", "m2"] [("custom", "1")] "cid0" "custom" "1" (by decide)

/-- The shape in which a consumed value reaches the handler: raw bytes
(undecoded) or a decoded text value. -/
inductive DeliveredValue
  | bytes (s : String)
  | text (s : String)
deriving DecidableEq

/-- Modelled from the spec: a raw record on the broker — its payload plus
the headers the producer attached (none for a native low-level push). -/
structure RawMessage where
  data : String
  headers : List (String × String)
deriving DecidableEq

/-- Modelled from the spec: a value pushed through the native low-level
client path (raw `publish` / `rpush`) carries no engine headers. -/
def nativePush (s : String) : RawMessage :=
  { data := s, headers := [] }

/-- Modelled from the spec: the engine's own `publish` of a text payload
marks the encoding it performed with a `content-type` header, alongside
the generated correlation id. -/
def enginePublishText (s cid : String) : RawMessage :=
  { data := s
    headers := [("content-type", "text/plain"), ("correlation_id", cid)] }

/-- Modelled from the spec: the decoding rule — the engine decodes only
encodings it performed itself (signalled by its own `content-type`
header); otherwise raw bytes are delivered as-is (the Redis decoder is not
in the excerpt). -/
def decodeMessage (m : RawMessage) : DeliveredValue :=
  match List.lookup "content-type" m.headers with
  | some ct =>
    if ct = "text/plain" then DeliveredValue.text m.data else DeliveredValue.bytes m.data
  | none => DeliveredValue.bytes m.data

/-- C7: a value pushed through the native low-level client path is
delivered to the handler as bytes, whereas the same value published
through the engine's own publish call is delivered decoded as text — the
engine never implicitly decodes an encoding it did not perform. -/
theorem native_delivered_as_bytes (s cid : String) :
    decodeMessage (nativePush s) = DeliveredValue.bytes s ∧
    decodeMessage (enginePublishText s cid) = DeliveredValue.text s :=
  ⟨rfl, rfl⟩
